import Mathlib

/-
Verification of the rollback-mitigation subsystem of a Couchbase DCP
client library (couchbase/rollback_mitigation.go), as a shallow
embedding: Go structs become Lean structures, the mutable subsystem
state becomes an explicit state record, and every fallible or
process-aborting path returns Option/Except (none / error = panic).
-/

namespace GoDcp

/-- One replica slot (vbUUIDAndSeqNo in the source): the last reported
vbUUID and persisted seqNo together with the absent flag set when the
topology has no such replica. vbUUID and seqNo are 64-bit values used
only through equality and order, so Nat models them. -/
structure VbUUIDAndSeqNo where
  vbUUID : Nat
  seqNo : Nat
  absent : Bool
  deriving Repr, DecidableEq

/-- SetAbsent from the source: sets the absent flag, leaving the other
fields unchanged. -/
def setAbsent (r : VbUUIDAndSeqNo) : VbUUIDAndSeqNo :=
  { r with absent := true }

/-- The loop of getMinSeqNo that walks the slots after the first
non-absent one (indices startIndex+1 .. len-1 in the source): absent
slots are skipped, a slot whose vbUUID differs from the reference yields
0, otherwise the running minimum of seqNos is updated. -/
def getMinSeqNoLoop (vbUUID minSeqNo : Nat) : List VbUUIDAndSeqNo → Nat
  | [] => minSeqNo
  | replica :: rest =>
    if replica.absent then
      getMinSeqNoLoop vbUUID minSeqNo rest
    else if vbUUID ≠ replica.vbUUID then
      0
    else
      getMinSeqNoLoop vbUUID (if minSeqNo > replica.seqNo then replica.seqNo else minSeqNo) rest

/-- getMinSeqNo from the source, on the replica vector loaded for one
vBucket. The source scans for the first non-absent index (startIndex);
the slots before it are exactly a longest absent prefix, so that scan is
dropWhile on the absent flag. If no non-absent slot exists the result is
0 (and the source logs "all replicas absent"); otherwise the first
non-absent slot provides the reference vbUUID and the initial minimum
and the loop processes the remaining slots. A vBucket with no stored
vector corresponds to the empty list: the source ignores the Load
failure and ranges over a nil slice. -/
def getMinSeqNo (replicas : List VbUUIDAndSeqNo) : Nat :=
  match replicas.dropWhile (fun r => r.absent) with
  | [] => 0
  | replica :: rest => getMinSeqNoLoop replica.vbUUID replica.seqNo rest

/-- True exactly when getMinSeqNo takes its startIndex = -1 branch,
where the source logs the error "all replicas absent". -/
def getMinSeqNoLogsAllAbsent (replicas : List VbUUIDAndSeqNo) : Bool :=
  (replicas.dropWhile (fun r => r.absent)).isEmpty

theorem minUpdate_eq_min (m s : Nat) : (if m > s then s else m) = min m s := by
  split <;> omega

theorem getMinSeqNoLoop_agree (u : Nat) (l : List VbUUIDAndSeqNo)
    (h : ∀ r ∈ l, r.absent = false → r.vbUUID = u) (m : Nat) :
    getMinSeqNoLoop u m l =
      List.foldl min m ((l.filter fun r => !r.absent).map VbUUIDAndSeqNo.seqNo) := by
  induction l generalizing m with
  | nil => rfl
  | cons r rest ih =>
    have hrest : ∀ x ∈ rest, x.absent = false → x.vbUUID = u := by
      intro x hx hxa
      exact h x (List.mem_cons_of_mem _ hx) hxa
    cases hr : r.absent with
    | true =>
      simp only [getMinSeqNoLoop, hr, if_true, List.filter_cons, Bool.not_true,
        Bool.false_eq_true, if_false]
      exact ih hrest m
    | false =>
      have hu : r.vbUUID = u := h r (List.mem_cons_self r rest) hr
      simp only [getMinSeqNoLoop, hr, Bool.false_eq_true, if_false, hu, ne_eq,
        not_true_eq_false, List.filter_cons, Bool.not_false, if_true, List.map_cons,
        List.foldl_cons, minUpdate_eq_min]
      exact ih hrest (min m r.seqNo)

theorem getMinSeqNoLoop_mismatch (u m : Nat) (l : List VbUUIDAndSeqNo)
    (h : ∃ r ∈ l, r.absent = false ∧ r.vbUUID ≠ u) :
    getMinSeqNoLoop u m l = 0 := by
  induction l generalizing m with
  | nil => exact absurd h (by simp)
  | cons r rest ih =>
    obtain ⟨x, hx, hxa, hxu⟩ := h
    cases hr : r.absent with
    | true =>
      simp only [getMinSeqNoLoop, hr, if_true]
      apply ih
      rcases List.mem_cons.mp hx with hxr | hxrest
      · rw [hxr] at hxa; rw [hxa] at hr; exact absurd hr (by simp)
      · exact ⟨x, hxrest, hxa, hxu⟩
    | false =>
      by_cases huu : u = r.vbUUID
      · simp only [getMinSeqNoLoop, hr, Bool.false_eq_true, if_false, huu, ne_eq,
          not_true_eq_false]
        rw [← huu]
        apply ih
        rcases List.mem_cons.mp hx with hxr | hxrest
        · exact absurd ((congrArg VbUUIDAndSeqNo.vbUUID hxr).trans huu.symm) hxu
        · exact ⟨x, hxrest, hxa, hxu⟩
      · simp [getMinSeqNoLoop, hr, huu]

/-- C1: for a replica vector with at least one non-absent slot in which
every non-absent slot holds the same vbUUID, getMinSeqNo returns the
minimum seqNo over all non-absent slots. -/
theorem getMinSeqNo_convergence (replicas : List VbUUIDAndSeqNo)
    (hne : ∃ r ∈ replicas, r.absent = false)
    (hagree : ∀ a ∈ replicas, ∀ b ∈ replicas,
      a.absent = false → b.absent = false → a.vbUUID = b.vbUUID) :
    ((replicas.filter fun r => !r.absent).map VbUUIDAndSeqNo.seqNo).min? =
      some (getMinSeqNo replicas) := by
  induction replicas with
  | nil => exact absurd hne (by simp)
  | cons r rest ih =>
    cases hr : r.absent with
    | true =>
      have hne' : ∃ x ∈ rest, x.absent = false := by
        obtain ⟨x, hx, hxa⟩ := hne
        rcases List.mem_cons.mp hx with hxr | hxrest
        · rw [hxr] at hxa; rw [hxa] at hr; exact absurd hr (by simp)
        · exact ⟨x, hxrest, hxa⟩
      have hagree' : ∀ a ∈ rest, ∀ b ∈ rest,
          a.absent = false → b.absent = false → a.vbUUID = b.vbUUID := by
        intro a ha b hb haa hba
        exact hagree a (List.mem_cons_of_mem _ ha) b (List.mem_cons_of_mem _ hb) haa hba
      have hdrop : getMinSeqNo (r :: rest) = getMinSeqNo rest := by
        simp [getMinSeqNo, List.dropWhile_cons, hr]
      rw [hdrop]
      simpa [List.filter_cons, hr] using ih hne' hagree'
    | false =>
      have hrestu : ∀ x ∈ rest, x.absent = false → x.vbUUID = r.vbUUID := by
        intro x hx hxa
        exact hagree x (List.mem_cons_of_mem _ hx) r (List.mem_cons_self r rest) hxa hr
      have hmain : getMinSeqNo (r :: rest) =
          List.foldl min r.seqNo ((rest.filter fun x => !x.absent).map VbUUIDAndSeqNo.seqNo) := by
        simp only [getMinSeqNo, List.dropWhile_cons, hr, if_false, Bool.false_eq_true]
        exact getMinSeqNoLoop_agree r.vbUUID rest hrestu r.seqNo
      rw [hmain]
      simp [List.filter_cons, hr, List.min?]

/-- Closed-form application of the C1 theorem: three non-absent slots
sharing vbUUID 5 with seqNos 10, 7, 9 yield minimum 7. -/
theorem getMinSeqNo_convergence_witness :
    ((([⟨5, 10, false⟩, ⟨5, 7, false⟩, ⟨5, 9, false⟩] :
        List VbUUIDAndSeqNo).filter fun r => !r.absent).map VbUUIDAndSeqNo.seqNo).min? =
      some (getMinSeqNo [⟨5, 10, false⟩, ⟨5, 7, false⟩, ⟨5, 9, false⟩]) :=
  getMinSeqNo_convergence _ (by decide) (by decide)

/-- C2: a replica vector containing two non-absent slots with different
vbUUIDs makes getMinSeqNo return 0. -/
theorem getMinSeqNo_divergence (replicas : List VbUUIDAndSeqNo)
    (a b : VbUUIDAndSeqNo) (ha : a ∈ replicas) (hb : b ∈ replicas)
    (haa : a.absent = false) (hba : b.absent = false)
    (hab : a.vbUUID ≠ b.vbUUID) :
    getMinSeqNo replicas = 0 := by
  induction replicas with
  | nil => exact absurd ha (by simp)
  | cons r rest ih =>
    cases hr : r.absent with
    | true =>
      have hdrop : getMinSeqNo (r :: rest) = getMinSeqNo rest := by
        simp [getMinSeqNo, List.dropWhile_cons, hr]
      have har : a ≠ r := by
        intro he; rw [he] at haa; rw [haa] at hr; exact absurd hr (by simp)
      have hbr : b ≠ r := by
        intro he; rw [he] at hba; rw [hba] at hr; exact absurd hr (by simp)
      have ha' : a ∈ rest := by
        rcases List.mem_cons.mp ha with h1 | h1
        · exact absurd h1 har
        · exact h1
      have hb' : b ∈ rest := by
        rcases List.mem_cons.mp hb with h1 | h1
        · exact absurd h1 hbr
        · exact h1
      rw [hdrop]
      exact ih ha' hb'
    | false =>
      have hmain : getMinSeqNo (r :: rest) = getMinSeqNoLoop r.vbUUID r.seqNo rest := by
        simp [getMinSeqNo, List.dropWhile_cons, hr]
      rw [hmain]
      apply getMinSeqNoLoop_mismatch
      rcases List.mem_cons.mp ha with hra | ha'
      · rcases List.mem_cons.mp hb with hrb | hb'
        · exact absurd (congrArg VbUUIDAndSeqNo.vbUUID (hra.trans hrb.symm)) hab
        · refine ⟨b, hb', hba, ?_⟩
          rw [← hra]
          exact fun he => hab he.symm
      · by_cases hau : a.vbUUID = r.vbUUID
        · rcases List.mem_cons.mp hb with hrb | hb'
          · rw [hrb] at hab
            exact absurd hau hab
          · exact ⟨b, hb', hba, fun he => hab (hau.trans he.symm)⟩
        · exact ⟨a, ha', haa, hau⟩

/-- Closed-form application of the C2 theorem: two non-absent slots with
vbUUIDs 5 and 6 yield 0. -/
theorem getMinSeqNo_divergence_witness :
    getMinSeqNo [⟨5, 10, false⟩, ⟨6, 7, false⟩] = 0 :=
  getMinSeqNo_divergence _ ⟨5, 10, false⟩ ⟨6, 7, false⟩ (by decide) (by decide)
    (by decide) (by decide) (by decide)

/-- C9: when every slot of the replica vector is absent (which includes
the vector of a vBucket with no stored entry, the empty list),
getMinSeqNo returns 0 and the source takes the branch that logs "all
replicas absent". -/
theorem getMinSeqNo_allAbsent (replicas : List VbUUIDAndSeqNo)
    (h : ∀ r ∈ replicas, r.absent = true) :
    getMinSeqNo replicas = 0 ∧ getMinSeqNoLogsAllAbsent replicas = true := by
  have hdrop : replicas.dropWhile (fun r => r.absent) = [] :=
    List.dropWhile_eq_nil_iff.mpr h
  constructor
  · simp [getMinSeqNo, hdrop]
  · simp [getMinSeqNoLogsAllAbsent, hdrop]

/-- Closed-form application of the C9 theorem: a vector of two absent
slots yields 0 with the all-absent log branch taken. -/
theorem getMinSeqNo_allAbsent_witness :
    getMinSeqNo [⟨5, 10, true⟩, ⟨6, 7, true⟩] = 0 ∧
      getMinSeqNoLogsAllAbsent [⟨5, 10, true⟩, ⟨6, 7, true⟩] = true :=
  getMinSeqNo_allAbsent _ (by decide)

/-- Result of one VbucketToServer routing query: a server index (which
can be negative, meaning unassigned), the ErrInvalidReplica error, or
any other error. -/
inductive VbToServerResult where
  | ok (serverIndex : Int)
  | errInvalidReplica
  | errOther
  deriving Repr, DecidableEq

/-- A gocbcore ConfigSnapshot as the subsystem uses it: the revEpoch and
revID read via reflection in getRevEpochAndID (int64, so Int), the
result of NumReplicas (which can fail), and the VbucketToServer routing
query indexed by (vbID, replicaIdx). -/
structure ConfigSnapshot where
  revEpoch : Int
  revID : Int
  numReplicasResult : Except Unit Nat
  vbucketToServer : Nat → Nat → VbToServerResult

/-- isConfigSnapshotNewerThan from the source, with the receiver's
installed snapshot passed explicitly as oldSnap: false when the new
epoch is smaller; on equal epochs false when the new revID is equal or
smaller; true in every remaining case. -/
def isConfigSnapshotNewerThan (oldSnap newSnap : ConfigSnapshot) : Bool :=
  if newSnap.revEpoch < oldSnap.revEpoch then
    false
  else if newSnap.revEpoch = oldSnap.revEpoch then
    if newSnap.revID = oldSnap.revID then
      false
    else if newSnap.revID < oldSnap.revID then
      false
    else
      true
  else
    true

/-- C4: isConfigSnapshotNewerThan decides the strict lexicographic order
on (revEpoch, revID), and in particular two snapshots with equal
versions compare false. -/
theorem isConfigSnapshotNewerThan_iff (oldSnap newSnap : ConfigSnapshot) :
    (isConfigSnapshotNewerThan oldSnap newSnap = true ↔
      (oldSnap.revEpoch < newSnap.revEpoch ∨
        (newSnap.revEpoch = oldSnap.revEpoch ∧ oldSnap.revID < newSnap.revID))) ∧
    (newSnap.revEpoch = oldSnap.revEpoch → newSnap.revID = oldSnap.revID →
      isConfigSnapshotNewerThan oldSnap newSnap = false) := by
  unfold isConfigSnapshotNewerThan
  constructor
  · constructor
    · intro h
      by_cases h1 : newSnap.revEpoch < oldSnap.revEpoch
      · simp [h1] at h
      · by_cases h2 : newSnap.revEpoch = oldSnap.revEpoch
        · right
          refine ⟨h2, ?_⟩
          by_cases h3 : newSnap.revID = oldSnap.revID
          · simp [h1, h2, h3] at h
          · by_cases h4 : newSnap.revID < oldSnap.revID
            · simp [h1, h2, h3, h4] at h
            · omega
        · left
          omega
    · intro h
      rcases h with h | ⟨h1, h2⟩
      · have h1 : ¬newSnap.revEpoch < oldSnap.revEpoch := by omega
        have h2 : ¬newSnap.revEpoch = oldSnap.revEpoch := by omega
        simp [h1, h2]
      · have h3 : ¬newSnap.revEpoch < oldSnap.revEpoch := by omega
        have h4 : ¬newSnap.revID = oldSnap.revID := by omega
        have h5 : ¬newSnap.revID < oldSnap.revID := by omega
        simp [h1, h3, h4, h5]
  · intro h1 h2
    have h3 : ¬newSnap.revEpoch < oldSnap.revEpoch := by omega
    simp [h1, h2, h3]

/-- Closed-form application of the C4 theorem at versions (2, 5) and
(2, 5): equal versions compare false. -/
theorem isConfigSnapshotNewerThan_iff_witness :
    isConfigSnapshotNewerThan
      ⟨2, 5, Except.ok 1, fun _ _ => VbToServerResult.ok 0⟩
      ⟨2, 5, Except.ok 1, fun _ _ => VbToServerResult.ok 0⟩ = false :=
  (isConfigSnapshotNewerThan_iff
      ⟨2, 5, Except.ok 1, fun _ _ => VbToServerResult.ok 0⟩
      ⟨2, 5, Except.ok 1, fun _ _ => VbToServerResult.ok 0⟩).2 rfl rfl

/-- The condition under which markAbsentInstances marks a slot absent,
as the claim states it: VbucketToServer yields ErrInvalidReplica or
succeeds with a negative server index. -/
def absentCondition (snap : ConfigSnapshot) (vbID idx : Nat) : Bool :=
  match snap.vbucketToServer vbID idx with
  | .ok serverIndex => decide (serverIndex < 0)
  | .errInvalidReplica => true
  | .errOther => false

/-- The inner loop of markAbsentInstances over the replica slots of one
vBucket, carrying the slot index. ErrInvalidReplica and a negative
server index mark the slot absent and continue; any other error stops
the walk immediately (the source sets outerError and returns false from
the Range callback), leaving the current and remaining slots untouched;
a non-negative server index leaves the slot untouched. The Bool is true
when the walk stopped with an error. -/
def markAbsentReplicas (snap : ConfigSnapshot) (vbID : Nat) :
    Nat → List VbUUIDAndSeqNo → List VbUUIDAndSeqNo × Bool
  | _, [] => ([], false)
  | idx, r :: rest =>
    match snap.vbucketToServer vbID idx with
    | .errOther => (r :: rest, true)
    | .errInvalidReplica =>
      let p := markAbsentReplicas snap vbID (idx + 1) rest
      (setAbsent r :: p.1, p.2)
    | .ok serverIndex =>
      if serverIndex < 0 then
        let p := markAbsentReplicas snap vbID (idx + 1) rest
        (setAbsent r :: p.1, p.2)
      else
        let p := markAbsentReplicas snap vbID (idx + 1) rest
        (r :: p.1, p.2)

/-- markAbsentInstances from the source, over the persistedSeqNos map
modelled as an association list in Range order. An error in one row
stops the whole Range (the callback returns false), leaving the rows
after it untouched; the error is returned. -/
def markAbsentInstances (snap : ConfigSnapshot) :
    List (Nat × List VbUUIDAndSeqNo) → List (Nat × List VbUUIDAndSeqNo) × Bool
  | [] => ([], false)
  | (vbID, replicas) :: rest =>
    let p := markAbsentReplicas snap vbID 0 replicas
    if p.2 then
      ((vbID, p.1) :: rest, true)
    else
      let q := markAbsentInstances snap rest
      ((vbID, p.1) :: q.1, q.2)

/-- Per-slot description of a completed marking walk, used to state the
claim: slot idx is replaced by an absent copy exactly when
absentCondition holds at (vbID, idx), and is untouched otherwise. -/
def markAbsentRowSpec (snap : ConfigSnapshot) (vbID : Nat) :
    Nat → List VbUUIDAndSeqNo → List VbUUIDAndSeqNo
  | _, [] => []
  | idx, r :: rest =>
    (if absentCondition snap vbID idx then setAbsent r else r) ::
      markAbsentRowSpec snap vbID (idx + 1) rest

theorem markAbsentReplicas_noError (snap : ConfigSnapshot) (vbID : Nat)
    (rs : List VbUUIDAndSeqNo) :
    ∀ idx, (markAbsentReplicas snap vbID idx rs).2 = false →
      (markAbsentReplicas snap vbID idx rs).1 = markAbsentRowSpec snap vbID idx rs := by
  induction rs with
  | nil => intro idx _; rfl
  | cons r rest ih =>
    intro idx h
    cases hq : snap.vbucketToServer vbID idx with
    | ok s =>
      by_cases hs : s < 0
      · simp only [markAbsentReplicas, hq, hs, if_true, markAbsentRowSpec,
          absentCondition, decide_eq_true_eq] at h ⊢
        rw [ih _ h]
      · simp only [markAbsentReplicas, hq, hs, if_false, markAbsentRowSpec,
          absentCondition, decide_eq_true_eq] at h ⊢
        rw [ih _ h]
    | errInvalidReplica =>
      simp only [markAbsentReplicas, hq, markAbsentRowSpec, absentCondition,
        if_true] at h ⊢
      rw [ih _ h]
    | errOther =>
      simp [markAbsentReplicas, hq] at h

theorem markAbsentReplicas_error (snap : ConfigSnapshot) (vbID : Nat)
    (rs : List VbUUIDAndSeqNo) :
    ∀ idx, (markAbsentReplicas snap vbID idx rs).2 = true →
      ∃ i, i < rs.length ∧ snap.vbucketToServer vbID (idx + i) = VbToServerResult.errOther := by
  induction rs with
  | nil => intro idx h; simp [markAbsentReplicas] at h
  | cons r rest ih =>
    intro idx h
    cases hq : snap.vbucketToServer vbID idx with
    | ok s =>
      by_cases hs : s < 0
      · simp only [markAbsentReplicas, hq, hs, if_true] at h
        obtain ⟨i, hi, he⟩ := ih (idx + 1) h
        refine ⟨i + 1, by simp; omega, ?_⟩
        rw [show idx + (i + 1) = idx + 1 + i by omega]
        exact he
      · simp only [markAbsentReplicas, hq, hs, if_false] at h
        obtain ⟨i, hi, he⟩ := ih (idx + 1) h
        refine ⟨i + 1, by simp; omega, ?_⟩
        rw [show idx + (i + 1) = idx + 1 + i by omega]
        exact he
    | errInvalidReplica =>
      simp only [markAbsentReplicas, hq] at h
      obtain ⟨i, hi, he⟩ := ih (idx + 1) h
      refine ⟨i + 1, by simp; omega, ?_⟩
      rw [show idx + (i + 1) = idx + 1 + i by omega]
      exact he
    | errOther =>
      exact ⟨0, by simp, by simpa using hq⟩

theorem markAbsentReplicas_mono (snap : ConfigSnapshot) (vbID : Nat)
    (rs : List VbUUIDAndSeqNo) :
    ∀ idx, List.Forall₂ (fun r s => r.absent = true → s.absent = true)
      rs (markAbsentReplicas snap vbID idx rs).1 := by
  induction rs with
  | nil => intro idx; simp [markAbsentReplicas]
  | cons r rest ih =>
    intro idx
    cases hq : snap.vbucketToServer vbID idx with
    | ok s =>
      by_cases hs : s < 0
      · simp only [markAbsentReplicas, hq, hs, if_true]
        exact List.Forall₂.cons (fun _ => rfl) (ih (idx + 1))
      · simp only [markAbsentReplicas, hq, hs, if_false]
        exact List.Forall₂.cons (fun h => h) (ih (idx + 1))
    | errInvalidReplica =>
      simp only [markAbsentReplicas, hq]
      exact List.Forall₂.cons (fun _ => rfl) (ih (idx + 1))
    | errOther =>
      simp only [markAbsentReplicas, hq]
      exact List.Forall₂.cons (fun h => h) (List.forall₂_same.mpr fun x _ h => h)

theorem markAbsentInstances_noError (snap : ConfigSnapshot)
    (m : List (Nat × List VbUUIDAndSeqNo)) :
    (markAbsentInstances snap m).2 = false →
      (markAbsentInstances snap m).1 =
        m.map (fun p => (p.1, markAbsentRowSpec snap p.1 0 p.2)) := by
  induction m with
  | nil => intro _; rfl
  | cons p rest ih =>
    obtain ⟨vbID, rs⟩ := p
    intro h
    by_cases hp : (markAbsentReplicas snap vbID 0 rs).2 = true
    · simp [markAbsentInstances, hp] at h
    · replace hp : (markAbsentReplicas snap vbID 0 rs).2 = false := by
        simpa using hp
      simp only [markAbsentInstances, hp, Bool.false_eq_true, if_false, List.map_cons] at h ⊢
      rw [markAbsentReplicas_noError snap vbID rs 0 hp, ih h]

theorem markAbsentInstances_error (snap : ConfigSnapshot)
    (m : List (Nat × List VbUUIDAndSeqNo)) :
    (markAbsentInstances snap m).2 = true →
      ∃ p ∈ m, ∃ i, i < p.2.length ∧
        snap.vbucketToServer p.1 i = VbToServerResult.errOther := by
  induction m with
  | nil => intro h; simp [markAbsentInstances] at h
  | cons p rest ih =>
    obtain ⟨vbID, rs⟩ := p
    intro h
    by_cases hp : (markAbsentReplicas snap vbID 0 rs).2 = true
    · obtain ⟨i, hi, he⟩ := markAbsentReplicas_error snap vbID rs 0 hp
      exact ⟨(vbID, rs), List.mem_cons_self _ _, i, hi, by simpa using he⟩
    · replace hp : (markAbsentReplicas snap vbID 0 rs).2 = false := by
        simpa using hp
      simp only [markAbsentInstances, hp, Bool.false_eq_true, if_false] at h
      obtain ⟨q, hq, hrest⟩ := ih h
      exact ⟨q, List.mem_cons_of_mem _ hq, hrest⟩

theorem markAbsentInstances_mono (snap : ConfigSnapshot)
    (m : List (Nat × List VbUUIDAndSeqNo)) :
    List.Forall₂
      (fun p q => List.Forall₂ (fun r s => r.absent = true → s.absent = true) p.2 q.2)
      m (markAbsentInstances snap m).1 := by
  induction m with
  | nil => simp [markAbsentInstances]
  | cons p rest ih =>
    obtain ⟨vbID, rs⟩ := p
    by_cases hp : (markAbsentReplicas snap vbID 0 rs).2 = true
    · simp only [markAbsentInstances, hp, if_true]
      exact List.Forall₂.cons (markAbsentReplicas_mono snap vbID rs 0)
        (List.forall₂_same.mpr fun x _ => List.forall₂_same.mpr fun r _ h => h)
    · replace hp : (markAbsentReplicas snap vbID 0 rs).2 = false := by
        simpa using hp
      simp only [markAbsentInstances, hp, Bool.false_eq_true, if_false]
      exact List.Forall₂.cons (markAbsentReplicas_mono snap vbID rs 0) ih

/-- The mutable fields of the rollbackMitigation struct that the claims
are about. Timers and channels carry no data relevant to the claims. -/
structure RMState where
  configSnapshot : Option ConfigSnapshot
  persistedSeqNos : List (Nat × List VbUUIDAndSeqNo)
  vbUUIDMap : List (Nat × Nat)
  vbIds : List Nat
  activeGroupID : Int
  closed : Bool

/-- The map built by reset: one row per owned vBucket, holding
numReplicas + 1 zero-initialized slots (the source allocates fresh
vbUUIDAndSeqNo structs, so vbUUID = 0, seqNo = 0, absent = false). -/
def resetRows (vbIds : List Nat) (numReplicas : Nat) : List (Nat × List VbUUIDAndSeqNo) :=
  vbIds.map fun vbID => (vbID, List.replicate (numReplicas + 1) ⟨0, 0, false⟩)

/-- reconfigure from the source as a state transformer; none models a
process abort. The source increments activeGroupID, calls reset (fatal
when the snapshot is missing or NumReplicas fails) and then
markAbsentInstances (fatal on error), and finally spawns startObserve
with the new group id. -/
def reconfigure (st : RMState) : Option RMState :=
  match st.configSnapshot with
  | none => none
  | some snap =>
    match snap.numReplicasResult with
    | Except.error _ => none
    | Except.ok n =>
      let p := markAbsentInstances snap (resetRows st.vbIds n)
      if p.2 then
        none
      else
        some { st with activeGroupID := st.activeGroupID + 1, persistedSeqNos := p.1 }

/-- C7: a completed markAbsentInstances walk marks a slot absent exactly
when VbucketToServer yields ErrInvalidReplica or a negative server index
for it; when some query yields another error, that error is returned
(and there is such a query in range) and reconfigure aborts; and no slot
is ever un-marked. -/
theorem markAbsentInstances_spec (snap : ConfigSnapshot)
    (m : List (Nat × List VbUUIDAndSeqNo)) :
    ((markAbsentInstances snap m).2 = false →
      (markAbsentInstances snap m).1 =
        m.map (fun p => (p.1, markAbsentRowSpec snap p.1 0 p.2))) ∧
    ((markAbsentInstances snap m).2 = true →
      ∃ p ∈ m, ∃ i, i < p.2.length ∧
        snap.vbucketToServer p.1 i = VbToServerResult.errOther) ∧
    List.Forall₂
      (fun p q => List.Forall₂ (fun r s => r.absent = true → s.absent = true) p.2 q.2)
      m (markAbsentInstances snap m).1 ∧
    (∀ st : RMState, ∀ n, st.configSnapshot = some snap →
      snap.numReplicasResult = Except.ok n →
      (markAbsentInstances snap (resetRows st.vbIds n)).2 = true →
      reconfigure st = none) := by
  refine ⟨markAbsentInstances_noError snap m, markAbsentInstances_error snap m,
    markAbsentInstances_mono snap m, ?_⟩
  intro st n hsnap hn herr
  simp [reconfigure, hsnap, hn, herr]

/-- Closed-form application of the C7 theorem: with a topology whose
replica 1 is invalid, a one-vBucket map with two fresh slots comes back
with exactly slot 1 marked absent. -/
theorem markAbsentInstances_spec_witness :
    (markAbsentInstances
        ⟨1, 1, Except.ok 1, fun _ i => if i = 0 then .ok 0 else .errInvalidReplica⟩
        [(7, [⟨0, 0, false⟩, ⟨0, 0, false⟩])]).1 =
      [(7, [⟨0, 0, false⟩, ⟨0, 0, true⟩])] := by
  have h := (markAbsentInstances_spec
    ⟨1, 1, Except.ok 1, fun _ i => if i = 0 then .ok 0 else .errInvalidReplica⟩
    [(7, [⟨0, 0, false⟩, ⟨0, 0, false⟩])]).1 (by rfl)
  rw [h]
  rfl

/-- Lookup in an association list modelling a ConcurrentSwissMap. -/
def alistLookup {α : Type} : List (Nat × α) → Nat → Option α
  | [], _ => none
  | p :: rest, k => if p.1 = k then some p.2 else alistLookup rest k

/-- Store in an association list: replaces the entry if the key is
present, appends otherwise. -/
def alistStore {α : Type} : List (Nat × α) → Nat → α → List (Nat × α)
  | [], k, v => [(k, v)]
  | p :: rest, k, v => if p.1 = k then (k, v) :: rest else p :: alistStore rest k v

/-- In-place update of the value stored under a key, modelling mutation
through the pointers the source holds into the map's slices. -/
def alistUpdate {α : Type} (m : List (Nat × α)) (k : Nat) (f : α → α) : List (Nat × α) :=
  m.map fun p => if p.1 = k then (p.1, f p.2) else p

/-- The two kinds of error an observe callback can receive:
gocbcore.ErrTemporaryFailure or any other error. -/
inductive ObserveErr where
  | temporaryFailure
  | other
  deriving Repr, DecidableEq

/-- The successful payload of an observe callback. -/
structure ObserveVbResult where
  persistSeqNo : Nat
  vbUUID : Nat
  deriving Repr, DecidableEq

/-- The payload published on the event bus. -/
structure PersistSeqNoEvent where
  vbID : Nat
  seqNo : Nat
  deriving Repr, DecidableEq

/-- The observe callback body from the source (the closure passed to
observeVbID), as a state transformer. The input is the (result, error)
pair handed to the callback; the output is none on panic, otherwise the
new state and the list of events published on the bus. The stale guard
comes first; a temporary failure is logged and dropped; any other error
panics; on success the slot is written, the recomputed minimum is
published, and the vbUUIDMap is updated when the reported vbUUID differs
from the one the observe was issued with. A missing map entry behaves as
the nil slice (its length check then fails for every replica index). -/
def observeCallback (st : RMState) (vbID replica : Nat) (groupID : Int) (vbUUID : Nat)
    (input : Except ObserveErr ObserveVbResult) :
    Option (RMState × List PersistSeqNoEvent) :=
  if st.closed = true ∨ st.activeGroupID ≠ groupID then
    some (st, [])
  else
    match input with
    | Except.error e =>
      if e = ObserveErr.temporaryFailure then some (st, []) else none
    | Except.ok result =>
      let replicas := (alistLookup st.persistedSeqNos vbID).getD []
      if h : replica < replicas.length then
        let old := replicas.get ⟨replica, h⟩
        let updated := replicas.set replica
          { old with seqNo := result.persistSeqNo, vbUUID := result.vbUUID }
        let st1 := { st with
          persistedSeqNos := alistUpdate st.persistedSeqNos vbID (fun _ => updated) }
        let events := [⟨vbID, getMinSeqNo ((alistLookup st1.persistedSeqNos vbID).getD [])⟩]
        if vbUUID ≠ result.vbUUID then
          some ({ st1 with vbUUIDMap := alistStore st1.vbUUIDMap vbID result.vbUUID }, events)
        else
          some (st1, events)
      else
        some (st, [])

/-- configWatch from the source: fetch = none models a GetConfigSnapshot
error. On success the snapshot is installed and reconfigure runs when no
snapshot was installed or the fetched one is strictly newer; the Bool
records whether reconfigure was invoked, and none models a panic inside
reconfigure. -/
def configWatch (st : RMState) (fetch : Option ConfigSnapshot) : Option RMState × Bool :=
  match fetch with
  | none => (some st, false)
  | some snapshot =>
    let trigger :=
      match st.configSnapshot with
      | none => true
      | some old => isConfigSnapshotNewerThan old snapshot
    if trigger then
      (reconfigure { st with configSnapshot := some snapshot }, true)
    else
      (some st, false)

/-- The state change of Stop: sets the closed flag (the timer and
channel interplay carries no modelled data). -/
def stopRM (st : RMState) : RMState :=
  { st with closed := true }

/-- The operations that can touch the modelled state after Start. -/
inductive Op where
  | configWatchTick (fetch : Option ConfigSnapshot)
  | observeCb (vbID replica : Nat) (groupID : Int) (vbUUID : Nat)
      (input : Except ObserveErr ObserveVbResult)
  | stopCall

/-- One step of the subsystem: the resulting state (none on panic) and
whether the step invoked reconfigure. -/
def step (st : RMState) : Op → Option RMState × Bool
  | Op.configWatchTick fetch => configWatch st fetch
  | Op.observeCb vbID replica groupID vbUUID input =>
    match observeCallback st vbID replica groupID vbUUID input with
    | none => (none, false)
    | some (st1, _) => (some st1, false)
  | Op.stopCall => (some (stopRM st), false)

/-- n successive reconfigure invocations, aborting on panic. -/
def reconfigureN : Nat → RMState → Option RMState
  | 0, st => some st
  | n + 1, st =>
    match reconfigure st with
    | none => none
    | some st1 => reconfigureN n st1

theorem reconfigure_groupID (st st' : RMState) (h : reconfigure st = some st') :
    st'.activeGroupID = st.activeGroupID + 1 := by
  cases hs : st.configSnapshot with
  | none => simp [reconfigure, hs] at h
  | some snap =>
    cases hn : snap.numReplicasResult with
    | error e => simp [reconfigure, hs, hn] at h
    | ok n =>
      by_cases hp : (markAbsentInstances snap (resetRows st.vbIds n)).2 = true
      · simp [reconfigure, hs, hn, hp] at h
      · simp only [reconfigure, hs, hn] at h
        rw [if_neg hp] at h
        simp only [Option.some.injEq] at h
        rw [← h]

theorem observeCallback_groupID (st : RMState) (vbID replica : Nat) (groupID : Int)
    (vbUUID : Nat) (input : Except ObserveErr ObserveVbResult)
    (st1 : RMState) (evs : List PersistSeqNoEvent)
    (h : observeCallback st vbID replica groupID vbUUID input = some (st1, evs)) :
    st1.activeGroupID = st.activeGroupID := by
  unfold observeCallback at h
  by_cases hc : st.closed = true ∨ st.activeGroupID ≠ groupID
  · rw [if_pos hc] at h
    simp only [Option.some.injEq, Prod.mk.injEq] at h
    rw [← h.1]
  · rw [if_neg hc] at h
    cases input with
    | error e =>
      replace h : (if e = ObserveErr.temporaryFailure then
          some (st, ([] : List PersistSeqNoEvent)) else none) = some (st1, evs) := h
      by_cases he : e = ObserveErr.temporaryFailure
      · rw [if_pos he] at h
        simp only [Option.some.injEq, Prod.mk.injEq] at h
        rw [← h.1]
      · rw [if_neg he] at h
        exact absurd h (by simp)
    | ok result =>
      simp only at h
      split at h
      · split at h <;>
          · simp only [Option.some.injEq, Prod.mk.injEq] at h
            rw [← h.1]
      · simp only [Option.some.injEq, Prod.mk.injEq] at h
        rw [← h.1]

theorem configWatch_snd_false (st : RMState) (fetch : Option ConfigSnapshot)
    (h : (configWatch st fetch).2 = false) :
    configWatch st fetch = (some st, false) := by
  cases fetch with
  | none => rfl
  | some snapshot =>
    cases hs : st.configSnapshot with
    | none =>
      have hval : configWatch st (some snapshot)
          = (reconfigure { st with configSnapshot := some snapshot }, true) := by
        simp [configWatch, hs]
      rw [hval] at h
      simp at h
    | some old =>
      cases ht : isConfigSnapshotNewerThan old snapshot with
      | true =>
        have hval : configWatch st (some snapshot)
            = (reconfigure { st with configSnapshot := some snapshot }, true) := by
          simp [configWatch, hs, ht]
        rw [hval] at h
        simp at h
      | false =>
        simp [configWatch, hs, ht]

theorem configWatch_snd_true_iff (st : RMState) (fetch : Option ConfigSnapshot) :
    (configWatch st fetch).2 = true ↔
      ∃ snap, fetch = some snap ∧
        (st.configSnapshot = none ∨
          ∃ old, st.configSnapshot = some old ∧ isConfigSnapshotNewerThan old snap = true) := by
  cases fetch with
  | none =>
    constructor
    · intro h
      exact absurd h (by simp [configWatch])
    · rintro ⟨snap, hsnap, _⟩
      exact absurd hsnap (by simp)
  | some snapshot =>
    cases hs : st.configSnapshot with
    | none =>
      have hval : (configWatch st (some snapshot)).2 = true := by
        simp [configWatch, hs]
      constructor
      · intro _
        exact ⟨snapshot, rfl, Or.inl rfl⟩
      · intro _
        exact hval
    | some old =>
      cases ht : isConfigSnapshotNewerThan old snapshot with
      | true =>
        have hval : (configWatch st (some snapshot)).2 = true := by
          simp [configWatch, hs, ht]
        constructor
        · intro _
          exact ⟨snapshot, rfl, Or.inr ⟨old, rfl, ht⟩⟩
        · intro _
          exact hval
      | false =>
        have hval : (configWatch st (some snapshot)).2 = false := by
          simp [configWatch, hs, ht]
        constructor
        · intro h
          rw [hval] at h
          exact absurd h (by simp)
        · rintro ⟨snap, hsnap, hdisj⟩
          injection hsnap with h1
          subst h1
          rcases hdisj with h1 | ⟨old', hold', hnewer⟩
          · exact absurd h1 (by simp)
          · injection hold' with h2
            subst h2
            rw [hnewer] at ht
            exact absurd ht (by simp)

theorem configWatch_true_groupID (st : RMState) (fetch : Option ConfigSnapshot)
    (h : (configWatch st fetch).2 = true) (st1 : RMState)
    (h1 : (configWatch st fetch).1 = some st1) :
    st1.activeGroupID = st.activeGroupID + 1 := by
  cases fetch with
  | none => exact absurd h (by simp [configWatch])
  | some snapshot =>
    cases hs : st.configSnapshot with
    | none =>
      have hval : configWatch st (some snapshot)
          = (reconfigure { st with configSnapshot := some snapshot }, true) := by
        simp [configWatch, hs]
      rw [hval] at h1
      have h2 : reconfigure { st with configSnapshot := some snapshot } = some st1 := h1
      exact reconfigure_groupID { st with configSnapshot := some snapshot } st1 h2
    | some old =>
      cases ht : isConfigSnapshotNewerThan old snapshot with
      | true =>
        have hval : configWatch st (some snapshot)
            = (reconfigure { st with configSnapshot := some snapshot }, true) := by
          simp [configWatch, hs, ht]
        rw [hval] at h1
        have h2 : reconfigure { st with configSnapshot := some snapshot } = some st1 := h1
        exact reconfigure_groupID { st with configSnapshot := some snapshot } st1 h2
      | false =>
        have hval : (configWatch st (some snapshot)).2 = false := by
          simp [configWatch, hs, ht]
        rw [hval] at h
        exact absurd h (by simp)

/-- C3: a callback delivered when the subsystem is closed or tagged
with a stale groupID returns with the state untouched (no ReplicaState
write, no vbUUIDMap update) and publishes nothing. -/
theorem observeCallback_stale (st : RMState) (vbID replica : Nat) (groupID : Int)
    (vbUUID : Nat) (input : Except ObserveErr ObserveVbResult)
    (h : st.closed = true ∨ st.activeGroupID ≠ groupID) :
    observeCallback st vbID replica groupID vbUUID input = some (st, []) := by
  unfold observeCallback
  rw [if_pos h]

/-- A closed subsystem state used to apply the stale-callback theorem. -/
def staleState : RMState :=
  ⟨none, [(42, [⟨0, 0, false⟩])], [], [42], 3, true⟩

/-- Closed-form application of the C3 theorem: a successful result
delivered after Stop leaves the state alone and publishes nothing. -/
theorem observeCallback_stale_witness :
    observeCallback staleState 42 0 3 0 (Except.ok ⟨100, 7⟩) = some (staleState, []) :=
  observeCallback_stale staleState 42 0 3 0 (Except.ok ⟨100, 7⟩) (Or.inl rfl)

/-- C6: a callback delivered live (not closed, current generation) with
an error input: a temporary failure is dropped without touching state or
publishing anything, and any other error panics. -/
theorem observeCallback_error (st : RMState) (vbID replica : Nat) (groupID : Int)
    (vbUUID : Nat) (hclosed : st.closed = false) (hgroup : st.activeGroupID = groupID) :
    observeCallback st vbID replica groupID vbUUID
        (Except.error ObserveErr.temporaryFailure) = some (st, []) ∧
    observeCallback st vbID replica groupID vbUUID
        (Except.error ObserveErr.other) = none := by
  have hc : ¬(st.closed = true ∨ st.activeGroupID ≠ groupID) := by
    simp [hclosed, hgroup]
  constructor
  · unfold observeCallback
    rw [if_neg hc]
    rfl
  · unfold observeCallback
    rw [if_neg hc]
    rfl

/-- A live subsystem state at generation 3 used to apply the
error-callback theorem. -/
def liveState : RMState :=
  ⟨none, [(42, [⟨0, 0, false⟩])], [], [42], 3, false⟩

/-- Closed-form application of the C6 theorem at the live sample
state. -/
theorem observeCallback_error_witness :
    observeCallback liveState 42 0 3 0 (Except.error ObserveErr.temporaryFailure) =
        some (liveState, []) ∧
    observeCallback liveState 42 0 3 0 (Except.error ObserveErr.other) = none :=
  observeCallback_error liveState 42 0 3 0 rfl rfl

/-- C5: a configWatch tick invokes reconfigure exactly when the fetch
succeeded and either no snapshot is installed or the fetched one is
strictly newer; otherwise the whole state, installed snapshot and
generation included, is returned unchanged and no reconfigure occurs;
and a triggered tick that completes raises the generation by one. -/
theorem configWatch_spec (st : RMState) (fetch : Option ConfigSnapshot) :
    ((configWatch st fetch).2 = true ↔
      ∃ snap, fetch = some snap ∧
        (st.configSnapshot = none ∨
          ∃ old, st.configSnapshot = some old ∧
            isConfigSnapshotNewerThan old snap = true)) ∧
    ((configWatch st fetch).2 = false → configWatch st fetch = (some st, false)) ∧
    (∀ st1, (configWatch st fetch).2 = true → (configWatch st fetch).1 = some st1 →
      st1.activeGroupID = st.activeGroupID + 1) :=
  ⟨configWatch_snd_true_iff st fetch, configWatch_snd_false st fetch,
   fun st1 h h1 => configWatch_true_groupID st fetch h st1 h1⟩

/-- Closed-form application of the C5 theorem: a failed fetch changes
nothing and triggers nothing. -/
theorem configWatch_spec_witness :
    configWatch liveState none = (some liveState, false) :=
  (configWatch_spec liveState none).2.1 rfl

theorem reconfigureN_groupID (n : Nat) :
    ∀ st st' : RMState, reconfigureN n st = some st' →
      st'.activeGroupID = st.activeGroupID + (n : Int) := by
  induction n with
  | zero =>
    intro st st' h
    simp only [reconfigureN, Option.some.injEq] at h
    rw [← h]
    simp
  | succ k ih =>
    intro st st' h
    cases hr : reconfigure st with
    | none => simp [reconfigureN, hr] at h
    | some st1 =>
      simp only [reconfigureN, hr] at h
      have h1 := reconfigure_groupID st st1 hr
      have h2 := ih st1 st' h
      rw [h2, h1]
      push_cast
      ring

/-- C8: reconfigure is the only modelled operation that changes the
generation counter: a successful reconfigure adds exactly one, any
modelled step changes the counter by one exactly when it invoked
reconfigure, and across a sequence of n reconfigurations the counter
grows by n, hence strictly increases. -/
theorem activeGroupID_monotone :
    (∀ st st' : RMState, reconfigure st = some st' →
      st'.activeGroupID = st.activeGroupID + 1) ∧
    (∀ (st : RMState) (op : Op) (st1 : RMState) (did : Bool),
      step st op = (some st1, did) →
      st1.activeGroupID = st.activeGroupID + (if did then 1 else 0)) ∧
    (∀ (n : Nat) (st st' : RMState), reconfigureN n st = some st' →
      st'.activeGroupID = st.activeGroupID + (n : Int) ∧
      (0 < n → st.activeGroupID < st'.activeGroupID)) := by
  refine ⟨reconfigure_groupID, ?_, ?_⟩
  · intro st op st1 did h
    cases op with
    | configWatchTick fetch =>
      cases did with
      | false =>
        have hc : configWatch st fetch = (some st1, false) := h
        have h2 := configWatch_snd_false st fetch (by rw [hc])
        rw [hc] at h2
        simp only [Prod.mk.injEq, Option.some.injEq] at h2
        rw [h2.1]
        simp
      | true =>
        have hc : configWatch st fetch = (some st1, true) := h
        have h2 := configWatch_true_groupID st fetch (by rw [hc]) st1 (by rw [hc])
        rw [h2]
        simp
    | observeCb vbID replica groupID vbUUID input =>
      cases hoc : observeCallback st vbID replica groupID vbUUID input with
      | none => simp [step, hoc] at h
      | some p =>
        obtain ⟨st2, evs⟩ := p
        simp only [step, hoc, Prod.mk.injEq, Option.some.injEq] at h
        obtain ⟨h1, h2⟩ := h
        rw [← h2, ← h1]
        simpa using observeCallback_groupID st vbID replica groupID vbUUID input st2 evs hoc
    | stopCall =>
      simp only [step, Prod.mk.injEq, Option.some.injEq] at h
      obtain ⟨h1, h2⟩ := h
      rw [← h2, ← h1]
      simp [stopRM]
  · intro n st st' h
    have h1 := reconfigureN_groupID n st st' h
    exact ⟨h1, fun hn => by omega⟩

/-- A snapshot whose routing succeeds everywhere, for the sample
state. -/
def sampleSnapshot : ConfigSnapshot :=
  ⟨1, 1, Except.ok 1, fun _ _ => VbToServerResult.ok 0⟩

/-- A freshly started subsystem owning vBucket 42 at generation 0. -/
def sampleState : RMState :=
  ⟨some sampleSnapshot, [], [], [42], 0, false⟩

/-- The state reconfigure produces from the sample state. -/
def sampleReconfigured : RMState :=
  ⟨some sampleSnapshot, [(42, [⟨0, 0, false⟩, ⟨0, 0, false⟩])], [], [42], 1, false⟩

/-- Closed-form application of the C8 theorem: one reconfigure from the
sample state raises the generation from 0 to 1, and a stop step leaves
it unchanged. -/
theorem activeGroupID_monotone_witness :
    sampleReconfigured.activeGroupID = sampleState.activeGroupID + 1 ∧
    (stopRM sampleState).activeGroupID =
      sampleState.activeGroupID + (if false then 1 else 0) :=
  ⟨activeGroupID_monotone.1 sampleState sampleReconfigured rfl,
   activeGroupID_monotone.2.1 sampleState Op.stopCall (stopRM sampleState) false rfl⟩

/-- One failover-log entry: (vbUUID, seqNo); index 0 of the fetched list
is the current active history branch. -/
structure FailoverEntry where
  vbUUID : Nat
  seqNo : Nat
  deriving Repr, DecidableEq

/-- How a loadVbUUIDMap run can abort the process: the client returned
an error (the source panics with it), or the client succeeded with an
empty list and indexing failoverLogs[0] panics out of range. -/
inductive LoadFailure where
  | clientError
  | indexOutOfRange
  deriving Repr, DecidableEq

/-- loadVbUUIDMap from the source: walks the persistedSeqNos rows, for
each vbID fetches the failover logs (panicking on error) and stores
failoverLogs[0].VbUUID into the vbUUID map, an indexing that panics when
the fetched list is empty — the source performs no emptiness check. -/
def loadVbUUIDMap (getFailoverLogs : Nat → Except Unit (List FailoverEntry)) :
    List (Nat × List VbUUIDAndSeqNo) → List (Nat × Nat) →
      Except LoadFailure (List (Nat × Nat))
  | [], acc => Except.ok acc
  | (vbID, _) :: rest, acc =>
    match getFailoverLogs vbID with
    | Except.error _ => Except.error LoadFailure.clientError
    | Except.ok [] => Except.error LoadFailure.indexOutOfRange
    | Except.ok (entry :: _) =>
      loadVbUUIDMap getFailoverLogs rest (alistStore acc vbID entry.vbUUID)

/-- C10: a successful but empty failover-log fetch makes loadVbUUIDMap
panic out of range even though the client reported no error, and the
out-of-range panic is impossible exactly under the precondition that
every successful fetch is non-empty. -/
theorem loadVbUUIDMap_spec :
    (loadVbUUIDMap (fun _ => Except.ok []) [(0, [⟨0, 0, false⟩])] [] =
      Except.error LoadFailure.indexOutOfRange) ∧
    (∀ g : Nat → Except Unit (List FailoverEntry),
      (∀ vb logs, g vb = Except.ok logs → logs ≠ []) →
      ∀ (m : List (Nat × List VbUUIDAndSeqNo)) (acc : List (Nat × Nat)),
        loadVbUUIDMap g m acc ≠ Except.error LoadFailure.indexOutOfRange) := by
  constructor
  · rfl
  · intro g hg m
    induction m with
    | nil =>
      intro acc h
      simp [loadVbUUIDMap] at h
    | cons p rest ih =>
      obtain ⟨vbID, rs⟩ := p
      intro acc h
      cases hgl : g vbID with
      | error e => simp [loadVbUUIDMap, hgl] at h
      | ok logs =>
        cases logs with
        | nil => exact absurd rfl (hg vbID [] hgl)
        | cons entry tail =>
          simp only [loadVbUUIDMap, hgl] at h
          exact ih _ h

/-- Closed-form application of the C10 theorem: with every fetch
returning one entry, the walk never aborts out of range. -/
theorem loadVbUUIDMap_spec_witness :
    loadVbUUIDMap (fun _ => Except.ok [⟨9, 1⟩]) [(0, [⟨0, 0, false⟩])] [] ≠
      Except.error LoadFailure.indexOutOfRange :=
  loadVbUUIDMap_spec.2 (fun _ => Except.ok [⟨9, 1⟩])
    (fun vb logs h => by
      injection h with h1
      rw [← h1]
      simp)
    [(0, [⟨0, 0, false⟩])] []

end GoDcp
